import Mathlib

/-
Verification of the aeolian terrain-evolution core of the desert dune
simulation (`src/SandDunes/index.html`): the height-field terrain, the
brush-style terrain painter, the height query, the avalanche (slope
relaxation) pass, the pooled wind-tracer and sand-grain particle systems,
and the keyboard wind controls.

JavaScript numbers are modelled as exact real numbers (`ℝ`); the 2D
`heightmap` array is modelled as a total function `ℤ × ℤ → ℝ` together
with the explicit bounds checks the source performs before every read and
write, so cells outside `[0, R] × [0, R]` are never touched.
-/

namespace SandDunes

noncomputable section

open Real

/-- The 2D terrain heightmap, indexed by (row, column). -/
def Grid : Type := ℤ × ℤ → ℝ

/-! ## Constants from the source (`src/SandDunes/index.html`, lines 134-183) -/

def WIND_UPDATE_INTERVAL : ℝ := 1 / 10

def WIND_STRENGTH : ℝ := 2

def WIND_SPAWN_RATE : ℕ := 10

def WIND_TTL : ℝ := 5

def EROSION_RATE : ℝ := 1 / 50

def MAX_WIND_PARTICLES : ℕ := 200

def TERRAIN_SMOOTHING : ℝ := 3 / 10

def TERRAIN_WIDTH : ℝ := 600

def TERRAIN_DEPTH : ℝ := 200

def TERRAIN_RESOLUTION : ℕ := 100

def HALF_TERRAIN_WIDTH : ℝ := TERRAIN_WIDTH / 2

def HALF_TERRAIN_DEPTH : ℝ := TERRAIN_DEPTH / 2

def FALLOFF_STRENGTH : ℝ := 1

def FALLOFF_RADIUS : ℕ := 3

/-- The angle-of-repose threshold `Math.tan(30 * Math.PI / 180)`. -/
def ANGLE_OF_REPOSE : ℝ := Real.tan (30 * Real.pi / 180)

def SAND_TTL : ℝ := 10

def SAND_SPAWN_RATE : ℕ := 20

def SAND_SPAWN_SPREAD : ℝ := 1

def SAND_ANGLE_SPREAD : ℝ := Real.pi / 8

def SAND_PARTICLE_SIZE : ℝ := 1 / 10

def MAX_SAND_PARTICLES : ℕ := 1000

def GRID_SIZE_X : ℝ := TERRAIN_WIDTH / TERRAIN_RESOLUTION

def GRID_SIZE_Z : ℝ := TERRAIN_DEPTH / TERRAIN_RESOLUTION

/-- Initial `sandAmount` (source line 131; the UI slider rebinds this variable). -/
def sandAmount : ℕ := 3000

/-- Initial wind speed (source line 118). -/
def windSpeed0 : ℝ := 1 / 2

/-- Initial wind direction, `45 * (Math.PI / 180)` (source line 119). -/
def windDirection0 : ℝ := 45 * (Real.pi / 180)

/-! ## Heightmap bounds checks and painting

The source functions `updateTerrainAtPoint` and `getTerrainHeight` are
embedded with the terrain geometry (`width`, `depth`, `res` = resolution,
`rad` = brush radius, `strength`) as explicit parameters; the source fixes
them to the constants above, and the instantiations at those constants are
given below the generic definitions. -/

/-- The bounds check `n >= 0 && n < res + 1` performed before every
heightmap access in the source. -/
def idxOk (res : ℕ) (n : ℤ) : Prop := 0 ≤ n ∧ n < (res : ℤ) + 1

instance (res : ℕ) (n : ℤ) : Decidable (idxOk res n) :=
  inferInstanceAs (Decidable (_ ∧ _))

/-- Both indices of a cell pass the bounds check. -/
def cellOk (res : ℕ) (a b : ℤ) : Prop := idxOk res a ∧ idxOk res b

instance (res : ℕ) (a b : ℤ) : Decidable (cellOk res a b) :=
  inferInstanceAs (Decidable (_ ∧ _))

/-- World x-coordinate to heightmap row:
`Math.floor((x + HALF_TERRAIN_WIDTH) / GRID_SIZE_X)`. -/
def toRow (width : ℝ) (res : ℕ) (x : ℝ) : ℤ :=
  ⌊(x + width / 2) / (width / (res : ℝ))⌋

/-- World z-coordinate to heightmap column:
`Math.floor((z + HALF_TERRAIN_DEPTH) / GRID_SIZE_Z)`. -/
def toCol (depth : ℝ) (res : ℕ) (z : ℝ) : ℤ :=
  ⌊(z + depth / 2) / (depth / (res : ℝ))⌋

/-- One iteration of the inner double loop of `updateTerrainAtPoint`
(source lines 365-378): for the offset `d = (di, dj)` from the brush
center `(i, j)`, skip the neighbor if it is outside the map, otherwise add
the falloff-weighted height change to it in place. -/
def paintCell (res rad : ℕ) (strength hgt : ℝ) (i j : ℤ) (g : Grid)
    (d : ℤ × ℤ) : Grid :=
  let ni := i + d.1
  let nj := j + d.2
  if cellOk res ni nj then
    let distance := Real.sqrt ((d.1 : ℝ) ^ 2 + (d.2 : ℝ) ^ 2)
    let falloff := 1 - min (distance / (rad : ℝ)) 1
    Function.update g (ni, nj) (g (ni, nj) + hgt * strength * falloff)
  else g

/-- The offsets `-rad, ..., rad` visited by one loop axis, in ascending
order. -/
def brushOffsets (rad : ℕ) : List ℤ :=
  (List.range (2 * rad + 1)).map (fun k : ℕ => (k : ℤ) - (rad : ℤ))

/-- The square of offsets `(di, dj)` visited by the nested loops of
`updateTerrainAtPoint`, `di` outer and `dj` inner, each ascending. -/
def brushSquare (rad : ℕ) : List (ℤ × ℤ) :=
  (brushOffsets rad).flatMap (fun di => (brushOffsets rad).map (fun dj => (di, dj)))

/-- Source `updateTerrainAtPoint(x, z, height)` (lines 357-380): convert
world coordinates to the heightmap cell `(i, j)`; if that cell is inside
the grid, iterate over the square of side `2 * rad + 1` around it, adding
`height * strength * falloff` to each in-bounds neighbor. -/
def updateTerrainAtPointGen (width depth : ℝ) (res rad : ℕ) (strength : ℝ)
    (g : Grid) (x z hgt : ℝ) : Grid :=
  let i := toRow width res x
  let j := toCol depth res z
  if cellOk res i j then
    (brushSquare rad).foldl (paintCell res rad strength hgt i j) g
  else g

/-- The paint function `updateTerrainAtPoint` at the source's constants. -/
def updateTerrainAtPoint (g : Grid) (x z hgt : ℝ) : Grid :=
  updateTerrainAtPointGen TERRAIN_WIDTH TERRAIN_DEPTH TERRAIN_RESOLUTION
    FALLOFF_RADIUS FALLOFF_STRENGTH g x z hgt

/-- Source `getTerrainHeight(x, z)` (lines 767-778): map world coordinates
to heightmap indices; return 0 when either index fails the bounds check,
otherwise the stored height. -/
def getTerrainHeightGen (width depth : ℝ) (res : ℕ) (g : Grid) (x z : ℝ) : ℝ :=
  let i := toRow width res x
  let j := toCol depth res z
  if i < 0 ∨ (res : ℤ) + 1 ≤ i ∨ j < 0 ∨ (res : ℤ) + 1 ≤ j then 0
  else g (i, j)

/-- The height query `getTerrainHeight` at the source's constants. -/
def getTerrainHeight (g : Grid) (x z : ℝ) : ℝ :=
  getTerrainHeightGen TERRAIN_WIDTH TERRAIN_DEPTH TERRAIN_RESOLUTION g x z

/-! ## Avalanche (slope relaxation) pass -/

/-- Source `checkTransfer(row, col, nRow, nCol)` (lines 703-710): if the
height difference from `(row, col)` down to `(nRow, nCol)` exceeds the
angle-of-repose threshold `A`, move half the excess from the source cell
to the neighbor, in place (first the subtraction at the source, then the
addition at the neighbor). -/
def checkTransfer (A : ℝ) (g : Grid) (row col nRow nCol : ℤ) : Grid :=
  let diff := g (row, col) - g (nRow, nCol)
  if A < diff then
    let t := (diff - A) * (1 / 2)
    let g1 := Function.update g (row, col) (g (row, col) - t)
    Function.update g1 (nRow, nCol) (g1 (nRow, nCol) + t)
  else g

/-- The interior indices `1, ..., n - 2` visited by each avalanche loop
axis, ascending. -/
def interiorRange (n : ℕ) : List ℤ :=
  (List.range' 1 (n - 2)).map (fun k : ℕ => (k : ℤ))

/-- Source `applyAvalanche()` (lines 718-731): one full grid pass; for
every interior cell, row-major, check the transfer to the neighbor above,
below, left, then right. `numRows` and `numCols` are the heightmap
dimensions (the source reads them off the array; both equal
`TERRAIN_RESOLUTION + 1`). -/
def applyAvalanche (A : ℝ) (numRows numCols : ℕ) (g : Grid) : Grid :=
  (interiorRange numRows).foldl
    (fun g1 row =>
      (interiorRange numCols).foldl
        (fun g2 col =>
          checkTransfer A
            (checkTransfer A
              (checkTransfer A
                (checkTransfer A g2 row col (row - 1) col)
                row col (row + 1) col)
              row col row (col - 1))
            row col row (col + 1))
        g1)
    g

/-! ## Avalanche pass as the specification words it

The following two definitions are written from the specification text, to
be compared with `applyAvalanche` above: a fold over the row-major list of
interior cells, where each cell examines its four neighbors in the fixed
order above, below, left, right, and each transfer is applied immediately,
before the next neighbor is examined. -/

/-- Specification wording of one slope transfer: whenever
`diff = height[cell] - height[neighbor]` exceeds `A`, subtract
`t = (diff - A) * 0.5` from the cell and add `t` to the neighbor, in
place. -/
def transferSpec (A : ℝ) (g : Grid) (cell nbr : ℤ × ℤ) : Grid :=
  if A < g cell - g nbr then
    let t := (g cell - g nbr - A) * (1 / 2)
    let g1 := Function.update g cell (g cell - t)
    Function.update g1 nbr (g1 nbr + t)
  else g

/-- The fixed neighbor visiting order of the specification: above
(row - 1), below (row + 1), left (col - 1), right (col + 1). -/
def neighborOrder : List (ℤ × ℤ) := [(-1, 0), (1, 0), (0, -1), (0, 1)]

/-- The interior cells in row-major scan order, as the specification words
it. -/
def interiorCells (numRows numCols : ℕ) : List (ℤ × ℤ) :=
  (interiorRange numRows).flatMap
    (fun r => (interiorRange numCols).map (fun c => (r, c)))

/-- Specification wording of one avalanche pass: visit every interior cell
in row-major order; at each cell examine the four neighbors in the fixed
order, applying each transfer immediately. -/
def avalanchePassSpec (A : ℝ) (numRows numCols : ℕ) (g : Grid) : Grid :=
  (interiorCells numRows numCols).foldl
    (fun gacc cell =>
      neighborOrder.foldl
        (fun g2 d => transferSpec A g2 cell (cell.1 + d.1, cell.2 + d.2))
        gacc)
    g

/-! ## Particles

Both particle kinds share the shape `{position, velocity, life, visible}`;
a pool slot is active exactly when `visible = true`. -/

structure Particle where
  x : ℝ
  y : ℝ
  z : ℝ
  vx : ℝ
  vy : ℝ
  vz : ℝ
  life : ℝ
  visible : Bool

/-- The pre-allocated pool slot contents (`init`, source lines 241-248):
an invisible particle with zero velocity at the mesh's default origin. -/
def blankParticle : Particle :=
  { x := 0, y := 0, z := 0, vx := 0, vy := 0, vz := 0, life := 0, visible := false }

/-- The sand pool as allocated by `init` (source line 241):
`new Array(MAX_SAND_PARTICLES)` of invisible particles. The allocation
does not read `sandAmount`. -/
def sandPool0 : List Particle := List.replicate MAX_SAND_PARTICLES blankParticle

/-- Number of active (visible) slots of a pool. -/
def countActive (pool : List Particle) : ℕ :=
  (pool.filter (fun p => p.visible)).length

/-- The effect of `resetSimulation` on a particle pool (source lines 451-452):
every slot is made invisible; other fields are left to be overwritten on
the next acquire. -/
def resetPool (pool : List Particle) : List Particle :=
  pool.map (fun p => { p with visible := false })

/-! ## Sand grain system -/

/-- The grain written into the first free slot by `spawnSandAt(x, z)`
(source lines 595-613): positioned just above the terrain surface, with
wind-driven horizontal velocity and a random saltation lift
`rLift * 0.5 + 0.2` (`rLift` stands for the `Math.random()` draw). -/
def saltationGrain (g : Grid) (ws wd rLift x z : ℝ) : Particle :=
  { x := x
    y := getTerrainHeight g x z + 1 / 10
    z := z
    vx := ws * Real.cos wd * WIND_STRENGTH
    vy := rLift * (1 / 2) + 1 / 5
    vz := ws * Real.sin wd * WIND_STRENGTH
    life := SAND_TTL
    visible := true }

/-- Source `spawnSandAt(x, z)` (lines 595-613): scan the sand pool in
ascending index order; replace the first invisible slot with the new
saltation grain and stop; if every slot is visible, do nothing. -/
def spawnSandAt (g : Grid) (ws wd rLift x z : ℝ) :
    List Particle → List Particle
  | [] => []
  | p :: rest =>
    if p.visible then p :: spawnSandAt g ws wd rLift x z rest
    else saltationGrain g ws wd rLift x z :: rest

/-- The position integration, gravity, and life countdown applied to one
active grain before its checks (source lines 664-673). -/
def integrateGrain (dt : ℝ) (p : Particle) : Particle :=
  { p with
    x := p.x + p.vx * dt
    y := p.y + p.vy * dt
    z := p.z + p.vz * dt
    vy := p.vy - (98 / 10) * dt
    life := p.life - dt }

/-- Whether an integrated grain is outside the terrain bounding box
expanded by the fixed margin 10 (source lines 685-688). -/
def grainOOB (p : Particle) : Prop :=
  p.x < -HALF_TERRAIN_WIDTH - 10 ∨ HALF_TERRAIN_WIDTH + 10 < p.x ∨
  p.z < -HALF_TERRAIN_DEPTH - 10 ∨ HALF_TERRAIN_DEPTH + 10 < p.z

instance (p : Particle) : Decidable (grainOOB p) :=
  inferInstanceAs (Decidable (_ ∨ _))

/-- The body of the physics/deposition loop of `updateSandParticles`
(source lines 661-692) for one pool slot: skip invisible slots; integrate
the grain; if it has fallen to or below the terrain, deposit
`SAND_PARTICLE_SIZE` there and deactivate it, skipping the other checks;
otherwise deactivate it (without touching the terrain) if it is out of
bounds or its life has expired. Returns the updated heightmap and slot. -/
def updateSandGrain (g : Grid) (dt : ℝ) (p : Particle) : Grid × Particle :=
  if p.visible then
    let p1 := integrateGrain dt p
    let terrainHeight := getTerrainHeight g p1.x p1.z
    if p1.y ≤ terrainHeight then
      (updateTerrainAtPoint g p1.x p1.z SAND_PARTICLE_SIZE,
        { p1 with visible := false })
    else if grainOOB p1 ∨ p1.life ≤ 0 then (g, { p1 with visible := false })
    else (g, p1)
  else (g, p)

/-- The physics/deposition loop of `updateSandParticles` over the whole
pool, threading the heightmap through the slots in order. -/
def updateSandPhysics (dt : ℝ) (g : Grid) : List Particle → Grid × List Particle
  | [] => (g, [])
  | p :: rest =>
    let gp := updateSandGrain g dt p
    let grest := updateSandPhysics dt gp.1 rest
    (grest.1, gp.2 :: grest.2)

/-! ## Wind tracer spawning -/

/-- The `Math.random()` draws consumed when spawning one wind particle
(source lines 526-550): edge offset, height, lateral offset, and the two
velocity jitter draws. -/
structure WindRand where
  rOff : ℝ
  rY : ℝ
  rPerp : ℝ
  rVx : ℝ
  rVz : ℝ

/-- The wind particle written into a free slot by the spawn loop of
`updateWindParticles` (source lines 522-557): placed at the upwind edge of
the terrain, offset outward by a random amount plus lateral jitter, with
velocity wind direction times wind speed times `WIND_STRENGTH` plus small
random noise. (`cos wd, 0, sin wd` is already unit length, so the
source's `.normalize()` is the identity on it.) -/
def windSpawnParticle (wd ws : ℝ) (r : WindRand) : Particle :=
  let offset := r.rOff * HALF_TERRAIN_WIDTH
  let x := -(Real.cos wd) * (HALF_TERRAIN_WIDTH + offset)
  let z := -(Real.sin wd) * (HALF_TERRAIN_DEPTH + offset)
  let y := r.rY * 10 + 5
  let perpOffset := (r.rPerp - 1 / 2) * 10
  { x := x + (-(Real.sin wd)) * perpOffset
    y := y
    z := z + Real.cos wd * perpOffset
    vx := Real.cos wd * ws * WIND_STRENGTH + (r.rVx - 1 / 2) * (1 / 5)
    vy := 0
    vz := Real.sin wd * ws * WIND_STRENGTH + (r.rVz - 1 / 2) * (1 / 5)
    life := WIND_TTL
    visible := true }

/-- The spawn loop of `updateWindParticles` (source lines 521-558):
`for (i = 0; i < windParticles.length && spawned < WIND_SPAWN_RATE; i++)`,
activating every invisible slot encountered with a freshly drawn particle
(`rnd i` stands for the draws consumed at slot `i`) until the spawn budget
is exhausted. -/
def windSpawnLoop (wd ws : ℝ) (rnd : ℕ → WindRand) :
    List Particle → ℕ → ℕ → List Particle
  | [], _, _ => []
  | p :: rest, i, spawned =>
    if spawned < WIND_SPAWN_RATE then
      if p.visible then p :: windSpawnLoop wd ws rnd rest (i + 1) spawned
      else windSpawnParticle wd ws (rnd i) :: windSpawnLoop wd ws rnd rest (i + 1) (spawned + 1)
    else p :: rest

/-- The spawn phase of `updateWindParticles`, started at slot 0 with no
particles spawned yet. -/
def updateWindSpawn (wd ws : ℝ) (rnd : ℕ → WindRand) (pool : List Particle) :
    List Particle :=
  windSpawnLoop wd ws rnd pool 0 0

/-! ## Wind state and keyboard input events -/

structure WindState where
  speed : ℝ
  direction : ℝ

/-- The wind state at page load (source lines 118-119). -/
def windState0 : WindState := { speed := windSpeed0, direction := windDirection0 }

/-- The keys recognized by the `keydown` handler. -/
inductive WindKey where
  | up
  | down
  | left
  | right
  | other

/-- The `keydown` handler of `initUI` (source lines 389-409): ArrowUp adds
`0.1` to the speed, ArrowDown subtracts `0.1` clamping at 0, ArrowLeft and
ArrowRight subtract and add `Math.PI / 36` to the direction; every other
key is ignored. -/
def handleWindKey (s : WindState) : WindKey → WindState
  | WindKey.up => { s with speed := s.speed + 1 / 10 }
  | WindKey.down => { s with speed := max 0 (s.speed - 1 / 10) }
  | WindKey.left => { s with direction := s.direction - Real.pi / 36 }
  | WindKey.right => { s with direction := s.direction + Real.pi / 36 }
  | WindKey.other => s

/-! ## Derived quantities and concrete states used by the theorems -/

/-- The cell index set of a `numRows × numCols` heightmap. -/
def gridSet (numRows numCols : ℕ) : Finset (ℤ × ℤ) :=
  Finset.Icc (0 : ℤ) ((numRows : ℤ) - 1) ×ˢ Finset.Icc (0 : ℤ) ((numCols : ℤ) - 1)

/-- The total terrain mass: the sum of all cell elevations. -/
def gridSum (numRows numCols : ℕ) (g : Grid) : ℝ :=
  ∑ p ∈ gridSet numRows numCols, g p

/-- The value the paint loop adds to the in-bounds cell at offset
`(di, dj)` from the brush center: the height delta times the strength
times the linear falloff `1 - min(dist / rad, 1)`. -/
def falloffWeight (rad : ℕ) (strength hgt : ℝ) (di dj : ℤ) : ℝ :=
  hgt * strength *
    (1 - min (Real.sqrt ((di : ℝ) ^ 2 + (dj : ℝ) ^ 2) / (rad : ℝ)) 1)

/-- A two-slot pool with every slot active, used to witness the saturated
spawn no-op. -/
def fullPool : List Particle :=
  [{ blankParticle with visible := true }, { blankParticle with visible := true }]

/-- A pool whose first slot is active and whose second slot is free. -/
def halfPool : List Particle :=
  [{ blankParticle with visible := true }, blankParticle]

/-- A heightmap with elevation 5 stored at the edge cell (100, 50) and 0
elsewhere, used to exhibit a nonzero query outside the terrain
rectangle. -/
def edgeBumpGrid : Grid := fun p => if p = ((100 : ℤ), (50 : ℤ)) then 5 else 0

/-- The everywhere-zero heightmap. -/
def zeroGrid : Grid := fun _ => 0

/-- The concrete scenario heightmap of C2: an all-zero grid of resolution
4 painted with `+10` at the world origin (which maps to the center cell
(2, 2) for an 8 × 8 terrain) with brush radius 2 and the source's falloff
strength. -/
def scenarioPaint : Grid :=
  updateTerrainAtPointGen 8 8 4 2 FALLOFF_STRENGTH zeroGrid 0 0 10

/-- An active sand grain resting at the world origin with zero velocity,
used to witness the deposit branch of the grain step. -/
def grain0 : Particle :=
  { x := 0, y := 0, z := 0, vx := 0, vy := 0, vz := 0, life := 1, visible := true }

/-! ## Pool lemmas -/

lemma windSpawnLoop_length (wd ws : ℝ) (rnd : ℕ → WindRand) :
    ∀ (pool : List Particle) (i spawned : ℕ),
      (windSpawnLoop wd ws rnd pool i spawned).length = pool.length := by
  intro pool
  induction pool with
  | nil => intro i spawned; rfl
  | cons p rest ih =>
    intro i spawned
    unfold windSpawnLoop
    by_cases hs : spawned < WIND_SPAWN_RATE
    · by_cases hv : p.visible <;> simp [hs, hv, ih]
    · simp [hs]

lemma windSpawnLoop_saturated (wd ws : ℝ) (rnd : ℕ → WindRand) :
    ∀ (pool : List Particle) (i spawned : ℕ),
      (∀ p ∈ pool, p.visible = true) →
      windSpawnLoop wd ws rnd pool i spawned = pool := by
  intro pool
  induction pool with
  | nil => intro i spawned _; rfl
  | cons p rest ih =>
    intro i spawned hall
    have hp : p.visible = true := hall p (List.mem_cons_self p rest)
    have hrest : ∀ q ∈ rest, q.visible = true :=
      fun q hq => hall q (List.mem_cons_of_mem p hq)
    unfold windSpawnLoop
    by_cases hs : spawned < WIND_SPAWN_RATE
    · simp [hs, hp, ih (i + 1) spawned hrest]
    · simp [hs]

lemma spawnSandAt_length (g : Grid) (ws wd rLift x z : ℝ) :
    ∀ pool : List Particle,
      (spawnSandAt g ws wd rLift x z pool).length = pool.length := by
  intro pool
  induction pool with
  | nil => rfl
  | cons p rest ih =>
    unfold spawnSandAt
    by_cases hv : p.visible <;> simp [hv, ih]

lemma spawnSandAt_saturated (g : Grid) (ws wd rLift x z : ℝ) :
    ∀ pool : List Particle, (∀ p ∈ pool, p.visible = true) →
      spawnSandAt g ws wd rLift x z pool = pool := by
  intro pool
  induction pool with
  | nil => intro _; rfl
  | cons p rest ih =>
    intro hall
    have hp : p.visible = true := hall p (List.mem_cons_self p rest)
    have hrest : ∀ q ∈ rest, q.visible = true :=
      fun q hq => hall q (List.mem_cons_of_mem p hq)
    unfold spawnSandAt
    simp [hp, ih hrest]

lemma updateSandPhysics_length (dt : ℝ) :
    ∀ (g : Grid) (pool : List Particle),
      (updateSandPhysics dt g pool).2.length = pool.length := by
  intro g pool
  induction pool generalizing g with
  | nil => rfl
  | cons p rest ih =>
    unfold updateSandPhysics
    simp [ih]

/-- For every pool state, the number of active slots is at most the number
of slots. -/
lemma countActive_le_length (pool : List Particle) :
    countActive pool ≤ pool.length :=
  List.length_filter_le _ _

lemma resetPool_length (pool : List Particle) :
    (resetPool pool).length = pool.length := by
  simp [resetPool]

lemma countActive_resetPool (pool : List Particle) :
    countActive (resetPool pool) = 0 := by
  induction pool with
  | nil => rfl
  | cons p rest ih => simp [countActive, resetPool]

/-- C5: the number of active (visible) slots in each particle pool never
exceeds the pool's fixed capacity: no operation (wind spawn, sand spawn,
grain physics step, reset) changes the number of slots, the active count
is always at most the slot count, and a spawn request arriving when every
slot is active changes nothing and raises no error. -/
theorem pool_capacity_invariant :
    (∀ (wd ws : ℝ) (rnd : ℕ → WindRand) (pool : List Particle),
        (updateWindSpawn wd ws rnd pool).length = pool.length) ∧
    (∀ (wd ws : ℝ) (rnd : ℕ → WindRand) (pool : List Particle),
        (∀ p ∈ pool, p.visible = true) → updateWindSpawn wd ws rnd pool = pool) ∧
    (∀ (g : Grid) (ws wd rLift x z : ℝ) (pool : List Particle),
        (spawnSandAt g ws wd rLift x z pool).length = pool.length) ∧
    (∀ (g : Grid) (ws wd rLift x z : ℝ) (pool : List Particle),
        (∀ p ∈ pool, p.visible = true) → spawnSandAt g ws wd rLift x z pool = pool) ∧
    (∀ (dt : ℝ) (g : Grid) (pool : List Particle),
        (updateSandPhysics dt g pool).2.length = pool.length) ∧
    (∀ pool : List Particle,
        (resetPool pool).length = pool.length ∧ countActive (resetPool pool) = 0) ∧
    (∀ pool : List Particle, countActive pool ≤ pool.length) := by
  refine ⟨?_, ?_, ?_, ?_, ?_, ?_, ?_⟩
  · intro wd ws rnd pool; exact windSpawnLoop_length wd ws rnd pool 0 0
  · intro wd ws rnd pool hall; exact windSpawnLoop_saturated wd ws rnd pool 0 0 hall
  · intro g ws wd rLift x z pool; exact spawnSandAt_length g ws wd rLift x z pool
  · intro g ws wd rLift x z pool hall; exact spawnSandAt_saturated g ws wd rLift x z pool hall
  · intro dt g pool; exact updateSandPhysics_length dt g pool
  · intro pool; exact ⟨resetPool_length pool, countActive_resetPool pool⟩
  · intro pool; exact countActive_le_length pool

/-- Witness for C5 at a concrete saturated pool. -/
theorem pool_capacity_invariant_witness :
    (∀ p ∈ fullPool, p.visible = true) ∧
      spawnSandAt (fun _ => 0) 1 0 0 0 0 fullPool = fullPool := by
  have hall : ∀ p ∈ fullPool, p.visible = true := by
    intro p hp
    simp only [fullPool, List.mem_cons, List.not_mem_nil, or_false] at hp
    rcases hp with rfl | rfl <;> rfl
  exact ⟨hall, pool_capacity_invariant.2.2.2.1 (fun _ => 0) 1 0 0 0 0 fullPool hall⟩

/-- C6: `spawnSandAt` scans the pool in ascending index order and
activates the first inactive slot: whenever every slot before index `k` is
active and slot `k` is inactive, the spawn replaces exactly slot `k` with
the new grain; and when every slot is active the request is a no-op. -/
theorem spawn_first_fit :
    (∀ (g : Grid) (ws wd rLift x z : ℝ) (pool : List Particle) (k : ℕ)
        (hk : k < pool.length),
        (∀ p ∈ pool.take k, p.visible = true) →
        (pool.get ⟨k, hk⟩).visible = false →
        spawnSandAt g ws wd rLift x z pool =
          pool.set k (saltationGrain g ws wd rLift x z)) ∧
    (∀ (g : Grid) (ws wd rLift x z : ℝ) (pool : List Particle),
        (∀ p ∈ pool, p.visible = true) →
        spawnSandAt g ws wd rLift x z pool = pool) := by
  constructor
  · intro g ws wd rLift x z pool
    induction pool with
    | nil => intro k hk; exact absurd hk (by simp)
    | cons p rest ih =>
      intro k hk htake hget
      cases k with
      | zero =>
        have hp : p.visible = false := hget
        unfold spawnSandAt
        simp [hp]
      | succ k =>
        have hp : p.visible = true := htake p (by simp)
        have htake' : ∀ q ∈ rest.take k, q.visible = true := by
          intro q hq
          exact htake q (by simp [List.take_succ_cons, hq])
        have hk' : k < rest.length := by simpa using hk
        unfold spawnSandAt
        simp [hp, ih k hk' htake' hget]
  · intro g ws wd rLift x z pool hall
    exact spawnSandAt_saturated g ws wd rLift x z pool hall

/-- Witness for C6: on `halfPool` the spawn activates exactly slot 1, the
lowest-indexed inactive slot. -/
theorem spawn_first_fit_witness :
    (∀ p ∈ halfPool.take 1, p.visible = true) ∧
      (halfPool.get ⟨1, by decide⟩).visible = false ∧
      spawnSandAt (fun _ => 0) 1 0 0 0 0 halfPool =
        halfPool.set 1 (saltationGrain (fun _ => 0) 1 0 0 0 0) := by
  have htake : ∀ p ∈ halfPool.take 1, p.visible = true := by
    intro p hp
    have h1 : halfPool.take 1 = [{ blankParticle with visible := true }] := rfl
    rw [h1, List.mem_singleton] at hp
    rw [hp]
  exact ⟨htake, rfl,
    spawn_first_fit.1 (fun _ => 0) 1 0 0 0 0 halfPool 1 (by decide) htake rfl⟩

/-- C7 counterexample: the sand pool allocated by `init` has exactly
`MAX_SAND_PARTICLES = 1000` slots, which differs from the configured
`sandAmount = 3000`; the capacity does not equal `sandAmount`. -/
theorem sand_pool_capacity_counterexample :
    sandPool0.length = MAX_SAND_PARTICLES ∧ sandPool0.length ≠ sandAmount := by
  constructor
  · simp [sandPool0]
  · rw [sandPool0, List.length_replicate]
    decide

/-- C7 (amended): the grain pool's capacity is the fixed constant
`MAX_SAND_PARTICLES = 1000`, independent of the configured `sandAmount`. -/
theorem sand_pool_capacity_fixed :
    sandPool0.length = MAX_SAND_PARTICLES ∧ MAX_SAND_PARTICLES = 1000 :=
  ⟨by simp [sandPool0], rfl⟩

/-! ## Wind input events -/

lemma foldl_right_direction (n : ℕ) (s : WindState) :
    ((List.replicate n WindKey.right).foldl handleWindKey s).direction =
      s.direction + n * (Real.pi / 36) := by
  induction n generalizing s with
  | zero => simp
  | succ n ih =>
    rw [List.replicate_succ, List.foldl_cons, ih]
    simp only [handleWindKey]
    push_cast
    ring

/-- C8 counterexample: starting from the initial wind state, 64 ArrowRight
events drive the wind direction past a full revolution: the direction is
not wrapped as an angle. -/
theorem wind_direction_unwrapped_counterexample :
    2 * Real.pi <
      ((List.replicate 64 WindKey.right).foldl handleWindKey windState0).direction := by
  rw [foldl_right_direction]
  simp only [windState0, windDirection0]
  have hpi := Real.pi_pos
  nlinarith

/-- C8 (amended): each wind-input event adds its fixed delta: ArrowUp adds
`0.1` to the speed, ArrowDown subtracts `0.1` clamping at 0 (so the speed
stays at least 0 after every event and every event sequence from a
nonnegative speed), and ArrowLeft/ArrowRight add `∓π/36` to the direction
additively, without wrapping. -/
theorem wind_input_events :
    (∀ (s : WindState) (k : WindKey), 0 ≤ s.speed → 0 ≤ (handleWindKey s k).speed) ∧
    (∀ (ks : List WindKey) (s : WindState),
        0 ≤ s.speed → 0 ≤ (ks.foldl handleWindKey s).speed) ∧
    (∀ s : WindState, (handleWindKey s WindKey.up).speed = s.speed + 1 / 10) ∧
    (∀ s : WindState,
        (handleWindKey s WindKey.down).speed = max 0 (s.speed - 1 / 10)) ∧
    (∀ s : WindState,
        (handleWindKey s WindKey.left).direction = s.direction - Real.pi / 36) ∧
    (∀ s : WindState,
        (handleWindKey s WindKey.right).direction = s.direction + Real.pi / 36) := by
  have hstep : ∀ (s : WindState) (k : WindKey),
      0 ≤ s.speed → 0 ≤ (handleWindKey s k).speed := by
    intro s k hs
    cases k <;> simp [handleWindKey] <;> linarith
  refine ⟨hstep, ?_, fun s => rfl, fun s => rfl, fun s => rfl, fun s => rfl⟩
  intro ks
  induction ks with
  | nil => intro s hs; simpa using hs
  | cons k rest ih =>
    intro s hs
    exact ih (handleWindKey s k) (hstep s k hs)

/-- Witness for C8 at the initial wind state and an ArrowDown event. -/
theorem wind_input_events_witness :
    0 ≤ windState0.speed ∧ 0 ≤ (handleWindKey windState0 WindKey.down).speed := by
  have h0 : 0 ≤ windState0.speed := by norm_num [windState0, windSpeed0]
  exact ⟨h0, wind_input_events.1 windState0 WindKey.down h0⟩

/-! ## The avalanche pass equals its specification -/

lemma foldl_flatMap_eq {α β γ : Type} (f : γ → α → γ) (L : List β)
    (g : β → List α) :
    ∀ init : γ, (L.flatMap g).foldl f init =
      L.foldl (fun acc b => (g b).foldl f acc) init := by
  induction L with
  | nil => intro init; rfl
  | cons b rest ih =>
    intro init
    rw [List.flatMap_cons, List.foldl_append, List.foldl_cons, ih]

/-- C1: one `applyAvalanche()` call performs exactly one full grid pass of
the specified algorithm: every interior cell, visited in row-major order,
examines its neighbors above, below, left, then right, and whenever
`diff = height[cell] - height[neighbor]` exceeds `A` it immediately moves
`t = (diff - A) * 0.5` from the cell to that neighbor in place, so later
comparisons in the same pass see the already-updated heights. -/
theorem avalanche_matches_spec_pass (A : ℝ) (numRows numCols : ℕ) (g : Grid) :
    applyAvalanche A numRows numCols g = avalanchePassSpec A numRows numCols g := by
  unfold applyAvalanche avalanchePassSpec interiorCells
  rw [foldl_flatMap_eq]
  congr 1
  funext g1 row
  rw [List.foldl_map]
  congr 1
  funext g2 col
  show _ =
    neighborOrder.foldl
      (fun g3 d => transferSpec A g3 (row, col) (row + d.1, col + d.2)) g2
  simp only [neighborOrder, List.foldl_cons, List.foldl_nil, add_zero,
    ← sub_eq_add_neg]
  rfl

/-! ## The avalanche pass conserves total terrain mass -/

lemma gridSum_update (numRows numCols : ℕ) (g : Grid) (q : ℤ × ℤ)
    (hq : q ∈ gridSet numRows numCols) (v : ℝ) :
    gridSum numRows numCols (Function.update g q v) =
      gridSum numRows numCols g + (v - g q) := by
  unfold gridSum
  rw [Finset.sum_update_of_mem hq, Finset.sum_eq_sum_diff_singleton_add hq g]
  ring

lemma gridSum_checkTransfer (A : ℝ) (numRows numCols : ℕ) (g : Grid)
    (row col nRow nCol : ℤ)
    (h1 : (row, col) ∈ gridSet numRows numCols)
    (h2 : (nRow, nCol) ∈ gridSet numRows numCols) :
    gridSum numRows numCols (checkTransfer A g row col nRow nCol) =
      gridSum numRows numCols g := by
  unfold checkTransfer
  by_cases h : A < g (row, col) - g (nRow, nCol)
  · simp only [h, if_true]
    rw [gridSum_update _ _ _ _ h2, gridSum_update _ _ _ _ h1]
    ring
  · simp [h]

lemma foldl_preserves {α : Type} (P : Grid → ℝ) (f : Grid → α → Grid)
    (L : List α) (h : ∀ a ∈ L, ∀ g, P (f g a) = P g) :
    ∀ g, P (L.foldl f g) = P g := by
  induction L with
  | nil => intro g; rfl
  | cons a rest ih =>
    intro g
    rw [List.foldl_cons, ih (fun b hb => h b (List.mem_cons_of_mem a hb)),
      h a (List.mem_cons_self a rest)]

lemma mem_interiorRange {n : ℕ} {r : ℤ} (hr : r ∈ interiorRange n) :
    1 ≤ r ∧ r + 1 ≤ (n : ℤ) - 1 := by
  simp only [interiorRange, List.mem_map] at hr
  rcases hr with ⟨k, hk, rfl⟩
  have := List.mem_range'_1.mp hk
  omega

/-- C10: one full avalanche pass conserves total terrain mass: the sum of
all cell elevations after `applyAvalanche` equals the sum before, in exact
real arithmetic, because every transfer subtracts `t` from one cell and
adds the same `t` to a neighbor. -/
theorem avalanche_conserves_mass (A : ℝ) (numRows numCols : ℕ) (g : Grid) :
    gridSum numRows numCols (applyAvalanche A numRows numCols g) =
      gridSum numRows numCols g := by
  unfold applyAvalanche
  refine foldl_preserves _ _ _ (fun row hrow g1 => ?_) g
  refine foldl_preserves _ _ _ (fun col hcol g2 => ?_) g1
  have hr := mem_interiorRange hrow
  have hc := mem_interiorRange hcol
  have hmem : ∀ a b : ℤ, 0 ≤ a → a ≤ (numRows : ℤ) - 1 → 0 ≤ b →
      b ≤ (numCols : ℤ) - 1 → (a, b) ∈ gridSet numRows numCols := by
    intro a b h1 h2 h3 h4
    simp [gridSet, Finset.mem_product, Finset.mem_Icc]
    omega
  rw [gridSum_checkTransfer, gridSum_checkTransfer, gridSum_checkTransfer,
    gridSum_checkTransfer]
  all_goals apply hmem <;> omega

/-! ## Height queries outside the terrain rectangle -/

/-- C3 counterexample: the world coordinate (301, 0) lies strictly outside
the terrain rectangle (301 > W/2 = 300), yet the height query returns the
stored edge elevation 5, not 0: the floor index mapping sends every
`x ∈ [300, 306)` to the in-bounds row 100. -/
theorem query_outside_rectangle_counterexample :
    HALF_TERRAIN_WIDTH < 301 ∧ getTerrainHeight edgeBumpGrid 301 0 = 5 := by
  constructor
  · norm_num [HALF_TERRAIN_WIDTH, TERRAIN_WIDTH]
  · have hrow : toRow TERRAIN_WIDTH TERRAIN_RESOLUTION 301 = 100 := by
      unfold toRow TERRAIN_WIDTH TERRAIN_RESOLUTION
      rw [Int.floor_eq_iff]
      constructor <;> norm_num
    have hcol : toCol TERRAIN_DEPTH TERRAIN_RESOLUTION 0 = 50 := by
      unfold toCol TERRAIN_DEPTH TERRAIN_RESOLUTION
      rw [Int.floor_eq_iff]
      constructor <;> norm_num
    unfold getTerrainHeight getTerrainHeightGen
    rw [hrow, hcol, if_neg (by norm_num [TERRAIN_RESOLUTION]), edgeBumpGrid]
    simp

/-- C3 (amended): the height query returns exactly 0 for every world
coordinate whose floor mapping falls outside the grid: whenever
`x < -W/2` or `x ≥ W/2 + W/R` (one grid cell past the positive edge), or
likewise for `z`, `getTerrainHeight` returns 0 and never an extrapolated
elevation; the original `[-W/2, W/2] × [-D/2, D/2]` bound fails only on
the half-open one-cell overhang kept in bounds by the floor mapping. -/
theorem query_outside_grid_zero (g : Grid) (x z : ℝ)
    (h : x < -HALF_TERRAIN_WIDTH ∨ HALF_TERRAIN_WIDTH + GRID_SIZE_X ≤ x ∨
      z < -HALF_TERRAIN_DEPTH ∨ HALF_TERRAIN_DEPTH + GRID_SIZE_Z ≤ z) :
    getTerrainHeight g x z = 0 := by
  simp only [HALF_TERRAIN_WIDTH, HALF_TERRAIN_DEPTH, GRID_SIZE_X, GRID_SIZE_Z,
    TERRAIN_WIDTH, TERRAIN_DEPTH, TERRAIN_RESOLUTION] at h
  unfold getTerrainHeight getTerrainHeightGen toRow toCol
  rw [if_pos]
  simp only [TERRAIN_WIDTH, TERRAIN_DEPTH, TERRAIN_RESOLUTION]
  rcases h with h | h | h | h
  · refine Or.inl (Int.floor_lt.mpr ?_)
    push_cast
    apply div_neg_of_neg_of_pos
    · norm_num at h ⊢; linarith
    · norm_num
  · refine Or.inr (Or.inl (Int.le_floor.mpr ?_))
    push_cast
    rw [le_div_iff₀ (by norm_num)]
    norm_num at h ⊢
    linarith
  · refine Or.inr (Or.inr (Or.inl (Int.floor_lt.mpr ?_)))
    push_cast
    apply div_neg_of_neg_of_pos
    · norm_num at h ⊢; linarith
    · norm_num
  · refine Or.inr (Or.inr (Or.inr (Int.le_floor.mpr ?_)))
    push_cast
    rw [le_div_iff₀ (by norm_num)]
    norm_num at h ⊢
    linarith

/-- Witness for the amended C3 at the concrete off-grid coordinate
(307, 0). -/
theorem query_outside_grid_zero_witness :
    ((307 : ℝ) < -HALF_TERRAIN_WIDTH ∨ HALF_TERRAIN_WIDTH + GRID_SIZE_X ≤ 307 ∨
      (0 : ℝ) < -HALF_TERRAIN_DEPTH ∨ HALF_TERRAIN_DEPTH + GRID_SIZE_Z ≤ 0) ∧
      getTerrainHeight (fun _ => 0) 307 0 = 0 := by
  have h : (307 : ℝ) < -HALF_TERRAIN_WIDTH ∨
      HALF_TERRAIN_WIDTH + GRID_SIZE_X ≤ 307 ∨
      (0 : ℝ) < -HALF_TERRAIN_DEPTH ∨ HALF_TERRAIN_DEPTH + GRID_SIZE_Z ≤ 0 := by
    refine Or.inr (Or.inl ?_)
    norm_num [HALF_TERRAIN_WIDTH, GRID_SIZE_X, TERRAIN_WIDTH, TERRAIN_RESOLUTION]
  exact ⟨h, query_outside_grid_zero (fun _ => 0) 307 0 h⟩

/-! ## Pointwise evaluation of the terrain brush -/

lemma falloffWeight_eq_max (rad : ℕ) (strength hgt : ℝ) (di dj : ℤ) :
    falloffWeight rad strength hgt di dj =
      hgt * strength *
        max 0 (1 - Real.sqrt ((di : ℝ) ^ 2 + (dj : ℝ) ^ 2) / (rad : ℝ)) := by
  unfold falloffWeight
  rcases le_total (Real.sqrt ((di : ℝ) ^ 2 + (dj : ℝ) ^ 2) / (rad : ℝ)) 1 with h | h
  · rw [min_eq_left h, max_eq_right (by linarith)]
  · rw [min_eq_right h, max_eq_left (by linarith)]
    ring_nf

lemma paintCell_apply_hit (res rad : ℕ) (strength hgt : ℝ) (i j : ℤ)
    (g : Grid) (d : ℤ × ℤ) :
    paintCell res rad strength hgt i j g d (i + d.1, j + d.2) =
      if cellOk res (i + d.1) (j + d.2) then
        g (i + d.1, j + d.2) + falloffWeight rad strength hgt d.1 d.2
      else g (i + d.1, j + d.2) := by
  unfold paintCell falloffWeight
  split
  · rw [Function.update_same]
  · rfl

lemma paintCell_apply_ne (res rad : ℕ) (strength hgt : ℝ) (i j : ℤ)
    (g : Grid) (d : ℤ × ℤ) (a b : ℤ) (hq : (i + d.1, j + d.2) ≠ (a, b)) :
    paintCell res rad strength hgt i j g d (a, b) = g (a, b) := by
  unfold paintCell
  split
  · rw [Function.update_noteq (Ne.symm hq)]
  · rfl

lemma foldl_paintCell_not_mem (res rad : ℕ) (strength hgt : ℝ) (i j : ℤ) :
    ∀ (L : List (ℤ × ℤ)) (g : Grid) (a b : ℤ), (a - i, b - j) ∉ L →
      L.foldl (paintCell res rad strength hgt i j) g (a, b) = g (a, b) := by
  intro L
  induction L with
  | nil => intro g a b _; rfl
  | cons d rest ih =>
    intro g a b hmem
    rw [List.foldl_cons,
      ih _ a b (fun hr => hmem (List.mem_cons_of_mem d hr)),
      paintCell_apply_ne]
    obtain ⟨d1, d2⟩ := d
    intro hq
    apply hmem
    have h1 : a - i = d1 ∧ b - j = d2 := by
      rw [Prod.mk.injEq] at hq
      omega
    rw [h1.1, h1.2]
    exact List.mem_cons_self _ rest

lemma foldl_paintCell_eval (res rad : ℕ) (strength hgt : ℝ) (i j : ℤ) :
    ∀ L : List (ℤ × ℤ), L.Nodup → ∀ (g : Grid) (a b : ℤ),
      (a - i, b - j) ∈ L →
      L.foldl (paintCell res rad strength hgt i j) g (a, b) =
        if cellOk res a b then
          g (a, b) + falloffWeight rad strength hgt (a - i) (b - j)
        else g (a, b) := by
  intro L
  induction L with
  | nil => intro _ g a b hmem; cases hmem
  | cons d rest ih =>
    intro hnd g a b hmem
    rw [List.foldl_cons]
    by_cases hd : (a - i, b - j) = d
    · have hnotin : (a - i, b - j) ∉ rest := by
        rw [hd]
        exact (List.nodup_cons.mp hnd).1
      rw [foldl_paintCell_not_mem res rad strength hgt i j rest _ a b hnotin]
      obtain ⟨d1, d2⟩ := d
      rw [Prod.mk.injEq] at hd
      have ha : a = i + d1 := by omega
      have hb : b = j + d2 := by omega
      subst ha
      subst hb
      have := paintCell_apply_hit res rad strength hgt i j g (d1, d2)
      simp only [add_sub_cancel_left]
      exact this
    · have hmem' : (a - i, b - j) ∈ rest := by
        rcases List.mem_cons.mp hmem with h | h
        · exact absurd h hd
        · exact h
      rw [ih (List.nodup_cons.mp hnd).2 _ a b hmem',
        paintCell_apply_ne res rad strength hgt i j g d a b]
      obtain ⟨d1, d2⟩ := d
      intro hq
      apply hd
      rw [Prod.mk.injEq] at hq ⊢
      omega

lemma brushOffsets_mem {rad : ℕ} {d : ℤ} :
    d ∈ brushOffsets rad ↔ -(rad : ℤ) ≤ d ∧ d ≤ (rad : ℤ) := by
  simp only [brushOffsets, List.mem_map, List.mem_range]
  constructor
  · rintro ⟨k, hk, rfl⟩
    omega
  · intro h
    exact ⟨(d + rad).toNat, by omega, by omega⟩

lemma brushOffsets_nodup (rad : ℕ) : (brushOffsets rad).Nodup := by
  apply List.Nodup.map
  · intro a b h
    simp only at h
    omega
  · exact List.nodup_range _

lemma brushSquare_mem {rad : ℕ} {d : ℤ × ℤ} :
    d ∈ brushSquare rad ↔
      (-(rad : ℤ) ≤ d.1 ∧ d.1 ≤ (rad : ℤ)) ∧
        (-(rad : ℤ) ≤ d.2 ∧ d.2 ≤ (rad : ℤ)) := by
  obtain ⟨d1, d2⟩ := d
  simp only [brushSquare, List.mem_flatMap, List.mem_map, Prod.mk.injEq]
  constructor
  · rintro ⟨di, hdi, dj, hdj, rfl, rfl⟩
    exact ⟨brushOffsets_mem.mp hdi, brushOffsets_mem.mp hdj⟩
  · rintro ⟨h1, h2⟩
    exact ⟨d1, brushOffsets_mem.mpr h1, d2, brushOffsets_mem.mpr h2, rfl, rfl⟩

lemma brushSquare_nodup (rad : ℕ) : (brushSquare rad).Nodup := by
  rw [brushSquare, List.nodup_flatMap]
  constructor
  · intro di _
    apply List.Nodup.map
    · intro a b h
      rw [Prod.mk.injEq] at h
      exact h.2
    · exact brushOffsets_nodup rad
  · refine List.Pairwise.imp ?_ (brushOffsets_nodup rad)
    intro a b hab
    intro x hxa hxb
    rcases List.mem_map.mp hxa with ⟨u, _, rfl⟩
    rcases List.mem_map.mp hxb with ⟨v, _, heq⟩
    rw [Prod.mk.injEq] at heq
    exact hab heq.1.symm

/-- Pointwise evaluation of the brush: with a positive radius, a paint
call adds `hgt * strength * max(0, 1 - dist / rad)` to each in-bounds cell
when the brush center is in bounds, and leaves every other cell — and the
whole map when the center is out of bounds — unchanged. -/
lemma updateTerrainAtPointGen_apply (width depth : ℝ) (res rad : ℕ)
    (strength : ℝ) (g : Grid) (x z hgt : ℝ) (a b : ℤ) (hrad : 0 < rad) :
    updateTerrainAtPointGen width depth res rad strength g x z hgt (a, b) =
      if cellOk res (toRow width res x) (toCol depth res z) ∧ cellOk res a b
      then
        g (a, b) + hgt * strength *
          max 0 (1 - Real.sqrt (((a - toRow width res x : ℤ) : ℝ) ^ 2 +
            ((b - toCol depth res z : ℤ) : ℝ) ^ 2) / (rad : ℝ))
      else g (a, b) := by
  unfold updateTerrainAtPointGen
  by_cases hc : cellOk res (toRow width res x) (toCol depth res z)
  · rw [if_pos hc]
    by_cases hmem : (a - toRow width res x, b - toCol depth res z) ∈ brushSquare rad
    · rw [foldl_paintCell_eval res rad strength hgt _ _ _ (brushSquare_nodup rad)
        g a b hmem, falloffWeight_eq_max]
      by_cases hb : cellOk res a b
      · rw [if_pos hb, if_pos ⟨hc, hb⟩]
      · rw [if_neg hb, if_neg (fun h => hb h.2)]
    · rw [foldl_paintCell_not_mem res rad strength hgt _ _ _ g a b hmem]
      have hfar : (rad : ℝ) <
          Real.sqrt (((a - toRow width res x : ℤ) : ℝ) ^ 2 +
            ((b - toCol depth res z : ℤ) : ℝ) ^ 2) := by
        set u := a - toRow width res x with hu
        set v := b - toCol depth res z with hv
        have hmem' : ¬((-(rad : ℤ) ≤ u ∧ u ≤ (rad : ℤ)) ∧
            (-(rad : ℤ) ≤ v ∧ v ≤ (rad : ℤ))) :=
          fun hcon => hmem (brushSquare_mem.mpr hcon)
        have hsq : (rad : ℤ) ^ 2 < u ^ 2 + v ^ 2 := by
          rcases not_and_or.mp hmem' with h | h <;>
            rcases not_and_or.mp h with h1 | h1 <;>
            push_neg at h1 <;>
            nlinarith [sq_nonneg u, sq_nonneg v]
        rw [Real.lt_sqrt (by positivity)]
        exact_mod_cast hsq
      have hmax : max 0 (1 - Real.sqrt (((a - toRow width res x : ℤ) : ℝ) ^ 2 +
          ((b - toCol depth res z : ℤ) : ℝ) ^ 2) / (rad : ℝ)) = 0 := by
        apply max_eq_left
        have hradpos : (0 : ℝ) < (rad : ℝ) := by exact_mod_cast hrad
        have : 1 < Real.sqrt (((a - toRow width res x : ℤ) : ℝ) ^ 2 +
            ((b - toCol depth res z : ℤ) : ℝ) ^ 2) / (rad : ℝ) :=
          (one_lt_div hradpos).mpr hfar
        linarith
      split
      · rw [hmax]
        ring
      · rfl
  · rw [if_neg hc, if_neg (fun h => hc h.1)]

/-! ## The paint contract (C2) and painting locality (C9) -/

lemma toRow_scenario : toRow 8 4 0 = 2 := by
  unfold toRow
  rw [Int.floor_eq_iff]
  constructor <;> norm_num

lemma toCol_scenario : toCol 8 4 0 = 2 := by
  unfold toCol
  rw [Int.floor_eq_iff]
  constructor <;> norm_num

lemma scenarioPaint_apply (a b : ℤ) :
    scenarioPaint (a, b) =
      if cellOk 4 a b then
        10 * max 0 (1 - Real.sqrt (((a - 2 : ℤ) : ℝ) ^ 2 +
          ((b - 2 : ℤ) : ℝ) ^ 2) / 2)
      else 0 := by
  unfold scenarioPaint
  rw [updateTerrainAtPointGen_apply 8 8 4 2 FALLOFF_STRENGTH zeroGrid 0 0 10 a b
    (by norm_num), toRow_scenario, toCol_scenario]
  have hcenter : cellOk 4 (2 : ℤ) (2 : ℤ) := by decide
  simp only [hcenter, true_and, zeroGrid, FALLOFF_STRENGTH]
  split
  · push_cast
    ring_nf
  · rfl

lemma scenarioPaint_far (a b : ℤ) (hcell : cellOk 4 a b)
    (hdist : 4 < (a - 2) ^ 2 + (b - 2) ^ 2) : scenarioPaint (a, b) = 0 := by
  rw [scenarioPaint_apply, if_pos hcell]
  have hgt2 : (2 : ℝ) <
      Real.sqrt (((a - 2 : ℤ) : ℝ) ^ 2 + ((b - 2 : ℤ) : ℝ) ^ 2) := by
    rw [Real.lt_sqrt (by norm_num)]
    exact_mod_cast hdist
  have hmax : max 0 (1 - Real.sqrt (((a - 2 : ℤ) : ℝ) ^ 2 +
      ((b - 2 : ℤ) : ℝ) ^ 2) / 2) = 0 := by
    apply max_eq_left
    have : 1 < Real.sqrt (((a - 2 : ℤ) : ℝ) ^ 2 + ((b - 2 : ℤ) : ℝ) ^ 2) / 2 :=
      (one_lt_div (by norm_num)).mpr hgt2
    linarith
  rw [hmax]
  ring

/-- C2: a paint call whose center cell is in bounds adds
`deltaHeight * max(0, 1 - dist / rad)` to every in-bounds cell at grid
distance `dist` from the center; and in the concrete radius-2 scenario on
an all-zero resolution-4 grid, painting +10 at the center cell (2, 2)
yields 10 there, 5 at its four neighbors, `10 - 5 * sqrt 2 ≈ 2.93` at the
diagonal neighbors, and 0 at every cell farther than distance 2. -/
theorem paint_brush_contract :
    (∀ (width depth : ℝ) (res rad : ℕ) (g : Grid) (x z hgt : ℝ) (a b : ℤ),
        0 < rad →
        cellOk res (toRow width res x) (toCol depth res z) →
        cellOk res a b →
        updateTerrainAtPointGen width depth res rad FALLOFF_STRENGTH g x z hgt
            (a, b) =
          g (a, b) + hgt *
            max 0 (1 - Real.sqrt (((a - toRow width res x : ℤ) : ℝ) ^ 2 +
              ((b - toCol depth res z : ℤ) : ℝ) ^ 2) / (rad : ℝ))) ∧
    scenarioPaint (2, 2) = 10 ∧
    (scenarioPaint (1, 2) = 5 ∧ scenarioPaint (3, 2) = 5 ∧
      scenarioPaint (2, 1) = 5 ∧ scenarioPaint (2, 3) = 5) ∧
    (scenarioPaint (1, 1) = 10 - 5 * Real.sqrt 2 ∧
      scenarioPaint (1, 3) = 10 - 5 * Real.sqrt 2 ∧
      scenarioPaint (3, 1) = 10 - 5 * Real.sqrt 2 ∧
      scenarioPaint (3, 3) = 10 - 5 * Real.sqrt 2) ∧
    (∀ a b : ℤ, cellOk 4 a b → 4 < (a - 2) ^ 2 + (b - 2) ^ 2 →
      scenarioPaint (a, b) = 0) := by
  have hsqrt2 : Real.sqrt 2 < 2 := by
    rw [Real.sqrt_lt' (by norm_num)]
    norm_num
  have hdiag : ∀ a b : ℤ, (a - 2 = 1 ∨ a - 2 = -1) → (b - 2 = 1 ∨ b - 2 = -1) →
      scenarioPaint (a, b) = 10 - 5 * Real.sqrt 2 := by
    intro a b ha hb
    have hcell : cellOk 4 a b := by
      constructor <;> constructor <;> omega
    rw [scenarioPaint_apply, if_pos hcell]
    have hz : (a - 2) ^ 2 + (b - 2) ^ 2 = (2 : ℤ) := by
      rcases ha with h | h <;> rcases hb with h' | h' <;> rw [h, h'] <;> norm_num
    have hsum : ((a - 2 : ℤ) : ℝ) ^ 2 + ((b - 2 : ℤ) : ℝ) ^ 2 = 2 := by
      exact_mod_cast congrArg (fun n : ℤ => (n : ℝ)) hz
    rw [hsum, max_eq_right (by linarith)]
    ring
  have hside : ∀ a b : ℤ,
      ((a - 2 = 1 ∨ a - 2 = -1) ∧ b = 2) ∨ (a = 2 ∧ (b - 2 = 1 ∨ b - 2 = -1)) →
      scenarioPaint (a, b) = 5 := by
    intro a b hab
    have hcell : cellOk 4 a b := by
      constructor <;> constructor <;> omega
    rw [scenarioPaint_apply, if_pos hcell]
    have hz : (a - 2) ^ 2 + (b - 2) ^ 2 = (1 : ℤ) := by
      rcases hab with ⟨h1, rfl⟩ | ⟨rfl, h1⟩ <;> rcases h1 with h | h <;>
        rw [h] <;> norm_num
    have hsum : ((a - 2 : ℤ) : ℝ) ^ 2 + ((b - 2 : ℤ) : ℝ) ^ 2 = 1 := by
      exact_mod_cast congrArg (fun n : ℤ => (n : ℝ)) hz
    rw [hsum, Real.sqrt_one, max_eq_right (by norm_num)]
    norm_num
  refine ⟨?_, ?_, ⟨?_, ?_, ?_, ?_⟩, ⟨?_, ?_, ?_, ?_⟩, scenarioPaint_far⟩
  · intro width depth res rad g x z hgt a b hrad hc hb
    rw [updateTerrainAtPointGen_apply width depth res rad FALLOFF_STRENGTH g
      x z hgt a b hrad, if_pos ⟨hc, hb⟩, FALLOFF_STRENGTH]
    ring
  · rw [scenarioPaint_apply, if_pos (by decide)]
    norm_num [Real.sqrt_zero]
  · exact hside 1 2 (Or.inl ⟨Or.inr (by norm_num), rfl⟩)
  · exact hside 3 2 (Or.inl ⟨Or.inl (by norm_num), rfl⟩)
  · exact hside 2 1 (Or.inr ⟨rfl, Or.inr (by norm_num)⟩)
  · exact hside 2 3 (Or.inr ⟨rfl, Or.inl (by norm_num)⟩)
  · exact hdiag 1 1 (Or.inr (by norm_num)) (Or.inr (by norm_num))
  · exact hdiag 1 3 (Or.inr (by norm_num)) (Or.inl (by norm_num))
  · exact hdiag 3 1 (Or.inl (by norm_num)) (Or.inr (by norm_num))
  · exact hdiag 3 3 (Or.inl (by norm_num)) (Or.inl (by norm_num))

/-- Witness for C2 at a concrete in-bounds input of the general part. -/
theorem paint_brush_contract_witness :
    (0 < 2 ∧ cellOk 4 (toRow 8 4 0) (toCol 8 4 0) ∧ cellOk 4 (2 : ℤ) (3 : ℤ)) ∧
      updateTerrainAtPointGen 8 8 4 2 FALLOFF_STRENGTH zeroGrid 0 0 10
          ((2 : ℤ), (3 : ℤ)) =
        zeroGrid (2, 3) + 10 *
          max 0 (1 - Real.sqrt ((((2 : ℤ) - toRow 8 4 0 : ℤ) : ℝ) ^ 2 +
            (((3 : ℤ) - toCol 8 4 0 : ℤ) : ℝ) ^ 2) / ((2 : ℕ) : ℝ)) := by
  have hc : cellOk 4 (toRow 8 4 0) (toCol 8 4 0) := by
    rw [toRow_scenario, toCol_scenario]
    decide
  have hb : cellOk 4 (2 : ℤ) (3 : ℤ) := by decide
  exact ⟨⟨by norm_num, hc, hb⟩,
    paint_brush_contract.1 8 8 4 2 zeroGrid 0 0 10 2 3 (by norm_num) hc hb⟩

/-- C9: painting locality: after one paint call, every cell whose
Euclidean distance in grid units from the brush's center cell exceeds the
brush radius has exactly the same elevation as before the call, for every
heightmap state, world coordinate, and height delta. -/
theorem paint_locality (width depth : ℝ) (res rad : ℕ) (strength : ℝ)
    (g : Grid) (x z hgt : ℝ) (a b : ℤ) (hrad : 0 < rad)
    (hfar : (rad : ℝ) < Real.sqrt (((a - toRow width res x : ℤ) : ℝ) ^ 2 +
      ((b - toCol depth res z : ℤ) : ℝ) ^ 2)) :
    updateTerrainAtPointGen width depth res rad strength g x z hgt (a, b) =
      g (a, b) := by
  rw [updateTerrainAtPointGen_apply width depth res rad strength g x z hgt a b
    hrad]
  split
  · have hradpos : (0 : ℝ) < (rad : ℝ) := by exact_mod_cast hrad
    have h1 : 1 < Real.sqrt (((a - toRow width res x : ℤ) : ℝ) ^ 2 +
        ((b - toCol depth res z : ℤ) : ℝ) ^ 2) / (rad : ℝ) :=
      (one_lt_div hradpos).mpr hfar
    rw [max_eq_left (by linarith)]
    ring
  · rfl

lemma toRow_origin : toRow TERRAIN_WIDTH TERRAIN_RESOLUTION 0 = 50 := by
  unfold toRow TERRAIN_WIDTH TERRAIN_RESOLUTION
  rw [Int.floor_eq_iff]
  constructor <;> norm_num

lemma toCol_origin : toCol TERRAIN_DEPTH TERRAIN_RESOLUTION 0 = 50 := by
  unfold toCol TERRAIN_DEPTH TERRAIN_RESOLUTION
  rw [Int.floor_eq_iff]
  constructor <;> norm_num

/-- Witness for C9 at the source's constants: the cell (54, 53), at
distance 5 > 3 from the brush center (50, 50), is unchanged. -/
theorem paint_locality_witness :
    (0 < FALLOFF_RADIUS ∧
      ((FALLOFF_RADIUS : ℕ) : ℝ) <
        Real.sqrt ((((54 : ℤ) - toRow TERRAIN_WIDTH TERRAIN_RESOLUTION 0 : ℤ) : ℝ) ^ 2 +
          (((53 : ℤ) - toCol TERRAIN_DEPTH TERRAIN_RESOLUTION 0 : ℤ) : ℝ) ^ 2)) ∧
      updateTerrainAtPointGen TERRAIN_WIDTH TERRAIN_DEPTH TERRAIN_RESOLUTION
          FALLOFF_RADIUS FALLOFF_STRENGTH zeroGrid 0 0 10 ((54 : ℤ), (53 : ℤ)) =
        zeroGrid (54, 53) := by
  have hfar : ((FALLOFF_RADIUS : ℕ) : ℝ) <
      Real.sqrt ((((54 : ℤ) - toRow TERRAIN_WIDTH TERRAIN_RESOLUTION 0 : ℤ) : ℝ) ^ 2 +
        (((53 : ℤ) - toCol TERRAIN_DEPTH TERRAIN_RESOLUTION 0 : ℤ) : ℝ) ^ 2) := by
    rw [toRow_origin, toCol_origin, Real.lt_sqrt (by positivity)]
    norm_num [FALLOFF_RADIUS]
  exact ⟨⟨by norm_num [FALLOFF_RADIUS], hfar⟩,
    paint_locality TERRAIN_WIDTH TERRAIN_DEPTH TERRAIN_RESOLUTION FALLOFF_RADIUS
      FALLOFF_STRENGTH zeroGrid 0 0 10 54 53 (by norm_num [FALLOFF_RADIUS]) hfar⟩

/-! ## Grain deposition (C4) -/

/-- C4: the per-grain body of one grain-system step: for an active grain,
if after position integration (with gravity applied to the vertical
velocity and the life decremented) its y-position is at or below the
queried terrain height at its (x, z), exactly one paint call with the
fixed positive grain size `SAND_PARTICLE_SIZE` is made there and the grain
is deactivated, skipping all further checks; otherwise, if the grain has
left the expanded bounding box or its life has reached 0 or below, it is
deactivated with no paint call and the heightmap unchanged. -/
theorem grain_step_deposit (g : Grid) (dt : ℝ) (p : Particle)
    (hv : p.visible = true) :
    ((integrateGrain dt p).y ≤
        getTerrainHeight g (integrateGrain dt p).x (integrateGrain dt p).z →
      updateSandGrain g dt p =
          (updateTerrainAtPoint g (integrateGrain dt p).x (integrateGrain dt p).z
              SAND_PARTICLE_SIZE,
            { integrateGrain dt p with visible := false }) ∧
        0 < SAND_PARTICLE_SIZE) ∧
    (¬ (integrateGrain dt p).y ≤
        getTerrainHeight g (integrateGrain dt p).x (integrateGrain dt p).z →
      grainOOB (integrateGrain dt p) ∨ (integrateGrain dt p).life ≤ 0 →
      updateSandGrain g dt p = (g, { integrateGrain dt p with visible := false })) := by
  constructor
  · intro hdep
    constructor
    · simp only [updateSandGrain, hv, if_true]
      rw [if_pos hdep]
    · norm_num [SAND_PARTICLE_SIZE]
  · intro hndep hdrop
    simp only [updateSandGrain, hv, if_true]
    rw [if_neg hndep, if_pos hdrop]

/-- Witness for C4: a resting grain at the origin deposits and is
deactivated. -/
theorem grain_step_deposit_witness :
    (grain0.visible = true ∧
      (integrateGrain 1 grain0).y ≤
        getTerrainHeight zeroGrid (integrateGrain 1 grain0).x
          (integrateGrain 1 grain0).z) ∧
      updateSandGrain zeroGrid 1 grain0 =
        (updateTerrainAtPoint zeroGrid (integrateGrain 1 grain0).x
            (integrateGrain 1 grain0).z SAND_PARTICLE_SIZE,
          { integrateGrain 1 grain0 with visible := false }) := by
  have hv : grain0.visible = true := rfl
  have hterr : getTerrainHeight zeroGrid (integrateGrain 1 grain0).x
      (integrateGrain 1 grain0).z = 0 := by
    simp only [getTerrainHeight, getTerrainHeightGen, zeroGrid, ite_self]
  have hdep : (integrateGrain 1 grain0).y ≤
      getTerrainHeight zeroGrid (integrateGrain 1 grain0).x
        (integrateGrain 1 grain0).z := by
    rw [hterr]
    norm_num [integrateGrain, grain0]
  exact ⟨⟨hv, hdep⟩, ((grain_step_deposit zeroGrid 1 grain0 hv).1 hdep).1⟩

end

end SandDunes
